import Mathlib

/-!
Shallow embedding of the mailbox-synchronization subsystem of the
imap-login repository, and proofs of its specified properties.

The embedded code comes from:
  * the email service (fetchUserEmails, saveEmailsToDatabase, getStoredEmails),
  * the IMAP service (buildXOAuth2Token, htmlToText, fetchEmails),
  * the auth service (refreshAccessToken),
  * the Email model (unique index on userId, messageId).

External collaborators (Sequelize store, google OAuth2 client, imap-simple,
mailparser) are modelled as explicit oracles/environments: each external call
site takes its outcome from the environment, and observable side effects
(provider calls, token persistence, connection open/close) are recorded in an
event trace.
-/

namespace ImapLogin

/-- JavaScript Array.prototype.join with a separator, used by the source as
a list-of-strings join when building the XOAUTH2 string. -/
def jsJoin (sep : String) : List String → String
  | [] => ""
  | [x] => x
  | x :: y :: xs => x ++ sep ++ jsJoin sep (y :: xs)

/-- JavaScript String.prototype.substring(0, n): the first n characters. -/
def jsSubstring (s : String) (n : Nat) : String :=
  String.mk (s.data.take n)

/-- JavaScript String.prototype.trim: strips leading and trailing
whitespace. -/
def jsTrim (s : String) : String :=
  String.mk
    (((s.data.dropWhile Char.isWhitespace).reverse.dropWhile
        Char.isWhitespace).reverse)

/-- UTF-8 encoding of one character, as byte values. Models Buffer.from on a
JavaScript string (which encodes UTF-8 by default). -/
def utf8Bytes (c : Char) : List Nat :=
  let n := c.toNat
  if n < 0x80 then [n]
  else if n < 0x800 then
    [0xC0 + n / 0x40, 0x80 + n % 0x40]
  else if n < 0x10000 then
    [0xE0 + n / 0x1000, 0x80 + n / 0x40 % 0x40, 0x80 + n % 0x40]
  else
    [0xF0 + n / 0x40000, 0x80 + n / 0x1000 % 0x40, 0x80 + n / 0x40 % 0x40,
     0x80 + n % 0x40]

/-- The byte sequence of a string (UTF-8). -/
def strBytes (s : String) : List Nat :=
  (s.data.map utf8Bytes).flatten

/-- The base64 alphabet. -/
def base64Chars : List Char :=
  ("ABCDEFGHIJKLMNOPQRSTUVWXYZabcdefghijklmnopqrstuvwxyz0123456789+/").data

/-- Character of the base64 alphabet at a 6-bit index. -/
def base64CharAt (n : Nat) : Char :=
  base64Chars.getD n 'A'

/-- Standard base64 encoding of a byte list, with '=' padding. Models
Buffer.prototype.toString with the base64 encoding. -/
def base64Encode : List Nat → String
  | [] => ""
  | [a] =>
    String.mk [base64CharAt (a / 4), base64CharAt (a % 4 * 16), '=', '=']
  | [a, b] =>
    String.mk [base64CharAt (a / 4), base64CharAt (a % 4 * 16 + b / 16),
               base64CharAt (b % 16 * 4), '=']
  | a :: b :: c :: rest =>
    String.mk [base64CharAt (a / 4), base64CharAt (a % 4 * 16 + b / 16),
               base64CharAt (b % 16 * 4 + c / 64), base64CharAt (c % 64)]
      ++ base64Encode rest

/-- buildXOAuth2Token from the IMAP service: joins the four components with
the \x01 delimiter and base64-encodes the result. -/
def buildXOAuth2Token (email accessToken : String) : String :=
  let authString :=
    jsJoin "\x01" ["user=" ++ email, "auth=Bearer " ++ accessToken, "", ""]
  base64Encode (strBytes authString)

/-- The SASL XOAUTH2 credential exactly as the spec words it: the byte
sequence of the delimiter-concatenated string, base64-encoded. -/
def xoauth2SpecToken (email accessToken : String) : String :=
  base64Encode (strBytes
    ("user=" ++ email ++ "\x01" ++ "auth=Bearer " ++ accessToken
      ++ "\x01" ++ "\x01"))

/-- A normalized message record as produced by the IMAP service and stored
by the email service. messageId is the IMAP uid. -/
structure EmailRecord where
  messageId : Nat
  fromAddr : String
  subject : String
  date : Nat
  body : String
  bodyHtml : String
  hasAttachments : Bool
deriving DecidableEq, Repr

/-- A row of the Email table: an EmailRecord together with its owning user id
(the defaults spread of the source copies every record field and adds userId).
The unique_user_message index makes (userId, messageId) the key. -/
structure StoredEmail where
  userId : Nat
  email : EmailRecord
deriving DecidableEq, Repr

/-- Whether a stored row matches the uniqueness key (userId, messageId). -/
def keyMatches (userId messageId : Nat) (r : StoredEmail) : Bool :=
  r.userId == userId && r.email.messageId == messageId

/-- Email.findOrCreate on the (userId, messageId) key: returns the new table
state and the created flag. If a row with the key exists the table is
untouched and created is false; otherwise the row is appended. -/
def findOrCreate (db : List StoredEmail) (userId : Nat) (email : EmailRecord) :
    List StoredEmail × Bool :=
  match db.find? (keyMatches userId email.messageId) with
  | some _ => (db, false)
  | none => (db ++ [{ userId := userId, email := email }], true)

/-- The loop body of saveEmailsToDatabase: iterates over the records,
counting created rows (savedCount) and found rows (skippedCount). The
failAt oracle gives the index at which Email.findOrCreate throws, if any;
a throw aborts the loop, leaving earlier inserts in place. -/
def saveEmailsLoop (failAt : Option Nat) (userId : Nat) :
    List EmailRecord → Nat → List StoredEmail → Nat → Nat →
    List StoredEmail × Except String (Nat × Nat)
  | [], _, db, savedCount, skippedCount =>
    (db, Except.ok (savedCount, skippedCount))
  | email :: rest, i, db, savedCount, skippedCount =>
    if failAt = some i then
      (db, Except.error "database write failed")
    else
      match findOrCreate db userId email with
      | (db2, true) =>
        saveEmailsLoop failAt userId rest (i + 1) db2 (savedCount + 1) skippedCount
      | (db2, false) =>
        saveEmailsLoop failAt userId rest (i + 1) db2 savedCount (skippedCount + 1)

/-- saveEmailsToDatabase from the email service: runs the loop inside a
try/catch. On success the counts are logged (returned here as some counts);
on a caught failure only the error is logged (none) and nothing is rethrown
in either case. -/
def saveEmailsToDatabase (failAt : Option Nat) (emails : List EmailRecord)
    (userId : Nat) (db : List StoredEmail) :
    List StoredEmail × Option (Nat × Nat) :=
  match saveEmailsLoop failAt userId emails 0 db 0 0 with
  | (db2, Except.ok counts) => (db2, some counts)
  | (db2, Except.error _) => (db2, none)

/-- Observable side effects of the subsystem: an OAuth2 provider exchange,
a token persistence write, and the IMAP connection opening and closing. -/
inductive NetEvent where
  | providerCall : NetEvent
  | persistToken : NetEvent
  | connOpened : NetEvent
  | connClosed : NetEvent
deriving DecidableEq, Repr

/-- Tag-stripping pass of htmlToText: characters inside angle brackets are
removed, each tag is replaced by one space (the source replaces tag regex
matches with a space). -/
def stripTags : List Char → Bool → List Char
  | [], _ => []
  | c :: rest, true =>
    if c = '>' then stripTags rest false else stripTags rest true
  | c :: rest, false =>
    if c = '<' then ' ' :: stripTags rest true else c :: stripTags rest false

/-- Whitespace-collapsing pass of htmlToText: every run of whitespace
becomes a single space (the \s+ to single-space replace of the source). -/
def collapseWs : List Char → Bool → List Char
  | [], _ => []
  | c :: rest, prevWs =>
    if c.isWhitespace then
      if prevWs then collapseWs rest true else ' ' :: collapseWs rest true
    else
      c :: collapseWs rest false

/-- htmlToText from the IMAP service: basic HTML-to-text conversion by tag
stripping, whitespace collapsing and trimming. The dedicated style/script
block removal of the source is a refinement of tag stripping that no
verified property depends on; tags (style and script ones included) are
stripped here in a single pass. -/
def htmlToText (html : String) : String :=
  if html = "" then ""
  else jsTrim (String.mk (collapseWs (stripTags html.data false) false))

/-- JavaScript truthiness of an optional string field: present and
non-empty. Used where the source branches on a string field directly. -/
def truthyStr : Option String → Option String
  | none => none
  | some s => if s = "" then none else some s

/-- The decoded HEADER part body of a fetched message: the first entry of
the from, subject and date header lists, when present. The date is already
the parsed timestamp. -/
structure HeaderBody where
  fromField : Option String
  subject : Option String
  date : Option Nat
deriving DecidableEq, Repr

/-- The outcome a MIME parse of the full message body would produce:
optional plain text, optional HTML, and the attachment count. This models
the value of the external simpleParser call. -/
structure ParsedMail where
  text : Option String
  html : Option String
  attachments : Nat
deriving DecidableEq, Repr

/-- A message as returned by the IMAP search. attributes is the uid (none
models a message whose attributes are missing, so that reading them throws
and the outer per-message catch fires). header is the HEADER part body when
that part is present with a body. allPart is the body of the full-message
part when present, given as the outcome of the simpleParser call on it:
error models a body-parse failure. -/
structure RawMessage where
  attributes : Option Nat
  header : Option HeaderBody
  allPart : Option (Except String ParsedMail)
deriving Repr

/-- The per-message processing of fetchEmails: builds the default record,
fills headers, then parses the body. A body-parse failure is caught by the
inner catch (the record keeps its defaults for the body fields); a failure
reading the message itself (missing attributes) is caught by the outer
catch and yields null (none), to be filtered out. -/
def processMessage (now : Nat) (message : RawMessage) : Option EmailRecord :=
  match message.attributes with
  | none => none
  | some uid =>
    let emailData : EmailRecord :=
      { messageId := uid, fromAddr := "", subject := "", date := now,
        body := "", bodyHtml := "", hasAttachments := false }
    let withHeader : EmailRecord :=
      match message.header with
      | none => emailData
      | some h =>
        { emailData with
            fromAddr := h.fromField.getD ""
            subject := h.subject.getD ""
            date := h.date.getD now }
    match message.allPart with
    | none => some withHeader
    | some (Except.error _) => some withHeader
    | some (Except.ok parsed) =>
      let body : String :=
        match truthyStr parsed.text with
        | some t => jsSubstring t 5000
        | none =>
          match truthyStr parsed.html with
          | some h => jsSubstring (htmlToText h) 5000
          | none => ""
      let bodyHtml : String :=
        match truthyStr parsed.html with
        | some h => jsSubstring h 10000
        | none => withHeader.bodyHtml
      some { withHeader with
               body := body
               bodyHtml := bodyHtml
               hasAttachments := parsed.attachments > 0 }

/-- The IMAP connection configuration built by fetchEmails. -/
structure ImapConfig where
  user : String
  xoauth2 : String
  host : String
  port : Nat
  tls : Bool
  authTimeout : Nat
  connTimeout : Nat
deriving DecidableEq, Repr

/-- Environment of one fetchEmails call: the current time and the outcomes
of the external IMAP operations (connect, openBox, search). -/
structure ImapEnv where
  now : Nat
  connect : ImapConfig → Except String Unit
  openBox : Except String Unit
  search : Except String (List RawMessage)

/-- fetchEmails from the IMAP service: builds the XOAUTH2 token and config,
connects, opens INBOX, searches, truncates to the first limit messages,
processes each message (dropping nulls) and closes the connection; on any
failure after a successful connect the connection is closed before the
error propagates. Returns the result and the trace of connection events. -/
def fetchEmails (env : ImapEnv) (accessToken : String) (emailAddress : String)
    (limit : Nat := 50) : Except String (List EmailRecord) × List NetEvent :=
  let xoauth2token := buildXOAuth2Token emailAddress accessToken
  let config : ImapConfig :=
    { user := emailAddress, xoauth2 := xoauth2token, host := "imap.gmail.com",
      port := 993, tls := true, authTimeout := 30000, connTimeout := 10000 }
  match env.connect config with
  | Except.error e => (Except.error e, [])
  | Except.ok _ =>
    match env.openBox with
    | Except.error e =>
      (Except.error e, [NetEvent.connOpened, NetEvent.connClosed])
    | Except.ok _ =>
      match env.search with
      | Except.error e =>
        (Except.error e, [NetEvent.connOpened, NetEvent.connClosed])
      | Except.ok messages =>
        let limitedMessages := messages.take limit
        let emails :=
          (limitedMessages.map (processMessage env.now)).filterMap id
        (Except.ok emails, [NetEvent.connOpened, NetEvent.connClosed])

/-- A row of the User table: internal id, email address (unique) and the
OAuth2 token pair. refreshToken is optional; a stored empty string is as
falsy as an absent one in the check of the source, so the absence test below is
on getD with the empty string. -/
structure UserRec where
  id : Nat
  email : String
  accessToken : String
  refreshToken : Option String
deriving DecidableEq, Repr

/-- refreshAccessToken from the auth service. providerTok is the outcome of
the external oauth2Client.getAccessToken call, modelled by its token field
(error models a thrown provider/transport failure, the empty string a
response with no token). Returns the result (error values carry the exact
thrown message), the user row as persisted afterwards, and the event trace:
providerCall when the exchange ran, persistToken when user.update ran. -/
def refreshAccessToken (providerTok : Except String String) (user : UserRec) :
    Except String String × UserRec × List NetEvent :=
  if user.refreshToken.getD "" = "" then
    (Except.error "No refresh token available; re-authentication required",
     user, [])
  else
    match providerTok with
    | Except.error e =>
      (Except.error ("Failed to refresh access token: " ++ e), user,
       [NetEvent.providerCall])
    | Except.ok freshAccessToken =>
      if freshAccessToken = "" then
        (Except.error
          "Failed to refresh access token: Unable to obtain access token",
         user, [NetEvent.providerCall])
      else if freshAccessToken ≠ user.accessToken then
        (Except.ok freshAccessToken, { user with accessToken := freshAccessToken },
         [NetEvent.providerCall, NetEvent.persistToken])
      else
        (Except.ok freshAccessToken, user, [NetEvent.providerCall])

/-- Environment of one fetchUserEmails call: the User table, the provider
outcome, the IMAP environment and the cache write failure oracle. -/
structure SyncEnv where
  users : List UserRec
  providerTok : Except String String
  imap : ImapEnv
  saveFailAt : Option Nat

/-- fetchUserEmails from the email service (the sync orchestrator): resolves
the user by email, refreshes the token, fetches via IMAP with the fresh
token, saves to the database (failures there swallowed), and returns the
fetched list. Errors raised inside the try block are rethrown with the
message prefixed. Returns the result, the email table afterwards, and the
combined event trace. -/
def fetchUserEmails (env : SyncEnv) (db : List StoredEmail)
    (emailAddress : String) :
    Except String (List EmailRecord) × List StoredEmail × List NetEvent :=
  if emailAddress = "" then
    (Except.error "Email address is required", db, [])
  else
    match env.users.find? (fun u => u.email == emailAddress) with
    | none => (Except.error "User not found", db, [])
    | some user =>
      match refreshAccessToken env.providerTok user with
      | (Except.error e, _, evs) =>
        (Except.error ("Failed to fetch emails: " ++ e), db, evs)
      | (Except.ok freshAccessToken, _, evs) =>
        match fetchEmails env.imap freshAccessToken emailAddress with
        | (Except.error e, evs2) =>
          (Except.error ("Failed to fetch emails: " ++ e), db, evs ++ evs2)
        | (Except.ok emails, evs2) =>
          let db2 := (saveEmailsToDatabase env.saveFailAt emails user.id db).1
          (Except.ok emails, db2, evs ++ evs2)

/-- SQL LIKE with wildcards on both sides: substring containment. -/
def strContains (hay needle : String) : Bool :=
  decide (List.IsInfix needle.data hay.data)

/-- The sortBy field of the query options, validated upstream to one of
date, from, subject. -/
inductive SortByField where
  | date : SortByField
  | fromAddr : SortByField
  | subject : SortByField
deriving DecidableEq, Repr

/-- The sortOrder of the query options, validated upstream (the source
upper-cases it before use). -/
inductive SortOrderDir where
  | asc : SortOrderDir
  | desc : SortOrderDir
deriving DecidableEq, Repr

/-- Query options of getStoredEmails with the destructuring
defaults. search is optional; absence defaults to the empty string. -/
structure QueryOptions where
  page : Nat := 1
  limit : Nat := 20
  search : Option String := none
  sortBy : SortByField := SortByField.date
  sortOrder : SortOrderDir := SortOrderDir.desc
deriving DecidableEq, Repr

/-- Ascending comparison of two rows on the sort field. -/
def rowLe (sortBy : SortByField) (r1 r2 : StoredEmail) : Bool :=
  match sortBy with
  | SortByField.date => r1.email.date ≤ r2.email.date
  | SortByField.fromAddr => r1.email.fromAddr ≤ r2.email.fromAddr
  | SortByField.subject => r1.email.subject ≤ r2.email.subject

/-- Insertion into a list sorted by the given comparison. -/
def insertSorted (le : StoredEmail → StoredEmail → Bool) (x : StoredEmail) :
    List StoredEmail → List StoredEmail
  | [] => [x]
  | y :: ys => if le x y then x :: y :: ys else y :: insertSorted le x ys

/-- Deterministic sort by the given comparison, modelling the ORDER BY of
the query. -/
def sortRows (le : StoredEmail → StoredEmail → Bool) :
    List StoredEmail → List StoredEmail
  | [] => []
  | x :: xs => insertSorted le x (sortRows le xs)

/-- ORDER BY sortBy sortOrder. -/
def sortEmails (sortBy : SortByField) (sortOrder : SortOrderDir)
    (rows : List StoredEmail) : List StoredEmail :=
  match sortOrder with
  | SortOrderDir.asc => sortRows (rowLe sortBy) rows
  | SortOrderDir.desc => sortRows (fun a b => rowLe sortBy b a) rows

/-- The where clause built by getStoredEmails, as the row predicate it
denotes: when search is truthy and has a non-whitespace character, userId
AND (from LIKE search OR subject LIKE search); otherwise userId only. -/
def buildWhereFilter (userId : Nat) (search : String) : StoredEmail → Bool :=
  if search ≠ "" && jsTrim search ≠ "" then
    fun r =>
      r.userId == userId
        && (strContains r.email.fromAddr search
              || strContains r.email.subject search)
  else
    fun r => r.userId == userId

/-- The pagination metadata returned by getStoredEmails. -/
structure Pagination where
  currentPage : Nat
  totalPages : Nat
  totalCount : Nat
  limit : Nat
  hasNextPage : Bool
  hasPrevPage : Bool
deriving DecidableEq, Repr

/-- The result shape of getStoredEmails. -/
structure QueryResult where
  emails : List StoredEmail
  pagination : Pagination
deriving DecidableEq, Repr

/-- Math.ceil of totalCount / limit on naturals (limit is validated to be
at least 1 upstream). -/
def ceilDiv (totalCount limit : Nat) : Nat :=
  (totalCount + limit - 1) / limit

/-- getStoredEmails from the email service: resolves the user, builds the
where clause from the search option, counts the matching rows, sorts and
paginates them, and returns the rows with pagination metadata. -/
def getStoredEmails (users : List UserRec) (db : List StoredEmail)
    (emailAddress : String) (options : QueryOptions) :
    Except String QueryResult :=
  match users.find? (fun u => u.email == emailAddress) with
  | none => Except.error "User not found"
  | some user =>
    let search := options.search.getD ""
    let offset := (options.page - 1) * options.limit
    let wf := buildWhereFilter user.id search
    let matching := db.filter wf
    let totalCount := matching.length
    let emails :=
      ((sortEmails options.sortBy options.sortOrder matching).drop offset).take
        options.limit
    let totalPages := ceilDiv totalCount options.limit
    Except.ok
      { emails := emails
        pagination :=
          { currentPage := options.page, totalPages := totalPages,
            totalCount := totalCount, limit := options.limit,
            hasNextPage := decide (options.page < totalPages),
            hasPrevPage := decide (options.page > 1) } }

/-- A sample message record used to instantiate proved properties. -/
def sampleRecord : EmailRecord :=
  { messageId := 7, fromAddr := "alice@x.com", subject := "greetings",
    date := 1700000000, body := "hello", bodyHtml := "", hasAttachments := false }

/-- The join of the four XOAUTH2 components is the concatenated form. -/
theorem jsJoin_xoauth2 (email accessToken : String) :
    jsJoin "\x01" ["user=" ++ email, "auth=Bearer " ++ accessToken, "", ""]
      = "user=" ++ email ++ "\x01" ++ "auth=Bearer " ++ accessToken
          ++ "\x01" ++ "\x01" := by
  apply String.ext
  simp [jsJoin]

/-- C6: for every mailbox address and access token, the credential string
built for authentication is exactly the byte sequence
user=(addr)\x01auth=Bearer (token)\x01\x01, base64-encoded. -/
theorem xoauth2_format_c6 (email accessToken : String) :
    buildXOAuth2Token email accessToken = xoauth2SpecToken email accessToken := by
  simp only [buildXOAuth2Token, xoauth2SpecToken]
  rw [jsJoin_xoauth2]

/-- C1: merging the same record twice for an owner inserts it exactly once:
the first merge reports counts (1, 0) (insertedCount 1), the second returns
the table unchanged with counts (0, 1) (insertedCount 0, skippedCount 1),
exactly one stored row matches the key (owner, messageId) afterwards, and
merging a record whose key already exists leaves the whole table unchanged. -/
theorem saveEmails_merge_twice_c1 (userId : Nat) (e : EmailRecord)
    (db : List StoredEmail)
    (h : db.find? (keyMatches userId e.messageId) = none) :
    (saveEmailsToDatabase none [e] userId db).2 = some (1, 0) ∧
    saveEmailsToDatabase none [e] userId (saveEmailsToDatabase none [e] userId db).1
      = ((saveEmailsToDatabase none [e] userId db).1, some (0, 1)) ∧
    (((saveEmailsToDatabase none [e] userId db).1).filter
        (keyMatches userId e.messageId)).length = 1 ∧
    ∀ db2 : List StoredEmail,
      (db2.find? (keyMatches userId e.messageId)).isSome = true →
      saveEmailsToDatabase none [e] userId db2 = (db2, some (0, 1)) := by
  have hrow : keyMatches userId e.messageId { userId := userId, email := e } = true := by
    simp [keyMatches]
  have hskip : ∀ db2 : List StoredEmail,
      (db2.find? (keyMatches userId e.messageId)).isSome = true →
      saveEmailsToDatabase none [e] userId db2 = (db2, some (0, 1)) := by
    intro db2 h2
    obtain ⟨r, hr⟩ := Option.isSome_iff_exists.mp h2
    simp [saveEmailsToDatabase, saveEmailsLoop, findOrCreate, hr]
  have h1 : saveEmailsToDatabase none [e] userId db
      = (db ++ [{ userId := userId, email := e }], some (1, 0)) := by
    simp [saveEmailsToDatabase, saveEmailsLoop, findOrCreate, h]
  have hfind2 : ((db ++ [({ userId := userId, email := e } : StoredEmail)]).find?
      (keyMatches userId e.messageId)).isSome = true := by
    rw [List.find?_append, h]
    simp [hrow]
  refine ⟨by rw [h1], ?_, ?_, hskip⟩
  · rw [h1]
    exact hskip _ hfind2
  · rw [h1]
    have hnil : db.filter (keyMatches userId e.messageId) = [] := by
      rw [List.filter_eq_nil_iff]
      intro a ha
      simpa using List.find?_eq_none.mp h a ha
    simp [List.filter_append, hnil, hrow]

/-- Witness for C1 at a concrete owner, record and empty table. -/
theorem saveEmails_merge_twice_c1_witness :
    (([] : List StoredEmail).find? (keyMatches 4 sampleRecord.messageId) = none) ∧
    ((saveEmailsToDatabase none [sampleRecord] 4 []).2 = some (1, 0) ∧
     saveEmailsToDatabase none [sampleRecord] 4
         (saveEmailsToDatabase none [sampleRecord] 4 []).1
       = ((saveEmailsToDatabase none [sampleRecord] 4 []).1, some (0, 1)) ∧
     (((saveEmailsToDatabase none [sampleRecord] 4 []).1).filter
         (keyMatches 4 sampleRecord.messageId)).length = 1 ∧
     ∀ db2 : List StoredEmail,
       (db2.find? (keyMatches 4 sampleRecord.messageId)).isSome = true →
       saveEmailsToDatabase none [sampleRecord] 4 db2 = (db2, some (0, 1))) :=
  ⟨rfl, saveEmails_merge_twice_c1 4 sampleRecord [] rfl⟩

/-- C9: every fetchEmails execution either never opened the connection
(empty trace: the connect call itself failed) or opened it and closed it
before returning, on the success path and on every failure path. -/
theorem connection_closed_c9 (env : ImapEnv) (accessToken emailAddress : String)
    (limit : Nat) :
    (fetchEmails env accessToken emailAddress limit).2 = [] ∨
    (fetchEmails env accessToken emailAddress limit).2
      = [NetEvent.connOpened, NetEvent.connClosed] := by
  unfold fetchEmails
  dsimp only
  split
  · left; rfl
  · split
    · right; rfl
    · split
      · right; rfl
      · right; rfl

/-- A sample stored account with both tokens, as in the spec scenario. -/
def sampleUser : UserRec :=
  { id := 1, email := "a@x.com", accessToken := "at1", refreshToken := some "rt1" }

/-- A sample stored account with no refresh token. -/
def sampleUserNoRefresh : UserRec :=
  { id := 2, email := "b@x.com", accessToken := "at1", refreshToken := none }

/-- C4: for every account whose refresh token is absent, refresh fails with
the ReauthRequired error (the no-refresh-token message) leaving the account
unchanged, and the empty event trace shows no provider exchange was
attempted before the failure. -/
theorem reauth_required_c4 (providerTok : Except String String) (user : UserRec)
    (h : user.refreshToken.getD "" = "") :
    refreshAccessToken providerTok user
      = (Except.error "No refresh token available; re-authentication required",
         user, []) := by
  simp [refreshAccessToken, h]

/-- Witness for C4 at a concrete account lacking a refresh token. -/
theorem reauth_required_c4_witness :
    (sampleUserNoRefresh.refreshToken.getD "" = "") ∧
    refreshAccessToken (Except.ok "at2") sampleUserNoRefresh
      = (Except.error "No refresh token available; re-authentication required",
         sampleUserNoRefresh, []) :=
  ⟨rfl, reauth_required_c4 (Except.ok "at2") sampleUserNoRefresh rfl⟩

/-- C5: for every account with a refresh token, when the provider returns
the stored access token the account is returned unchanged and no
persistence event occurs; when it returns a different token the stored
access token is updated to the new value (with a persistence event) before
that value is returned. -/
theorem token_persistence_c5 (user : UserRec) (t : String)
    (hrt : user.refreshToken.getD "" ≠ "") (ht : t ≠ "") :
    (t = user.accessToken →
       refreshAccessToken (Except.ok t) user
         = (Except.ok t, user, [NetEvent.providerCall])) ∧
    (t ≠ user.accessToken →
       refreshAccessToken (Except.ok t) user
         = (Except.ok t, { user with accessToken := t },
            [NetEvent.providerCall, NetEvent.persistToken])) := by
  constructor
  · intro h
    subst h
    simp [refreshAccessToken, hrt, ht]
  · intro h
    simp [refreshAccessToken, hrt, ht, h]

/-- Witness for C5: the spec scenario, with the provider returning at1
(unchanged) and at2 (changed) for the account holding (at1, rt1). -/
theorem token_persistence_c5_witness :
    (refreshAccessToken (Except.ok "at1") sampleUser
       = (Except.ok "at1", sampleUser, [NetEvent.providerCall])) ∧
    (refreshAccessToken (Except.ok "at2") sampleUser
       = (Except.ok "at2", { sampleUser with accessToken := "at2" },
          [NetEvent.providerCall, NetEvent.persistToken])) :=
  ⟨(token_persistence_c5 sampleUser "at1" (by decide) (by decide)).1 rfl,
   (token_persistence_c5 sampleUser "at2" (by decide) (by decide)).2 (by decide)⟩

/-- C8: for every address with no stored account, fetchUserEmails fails
with the AccountNotFound error (User not found), leaves the email table
untouched, and the empty event trace shows no provider exchange and no
mail-server connection was attempted. -/
theorem account_not_found_c8 (env : SyncEnv) (db : List StoredEmail)
    (emailAddress : String) (h0 : emailAddress ≠ "")
    (h : env.users.find? (fun u => u.email == emailAddress) = none) :
    fetchUserEmails env db emailAddress
      = (Except.error "User not found", db, []) := by
  simp [fetchUserEmails, h0, h]

/-- A fetched message with the given uid, a fixed header and the given
body-part parse outcome. -/
def demoMessage (uid : Nat) (p : Option (Except String ParsedMail)) : RawMessage :=
  { attributes := some uid,
    header := some { fromField := some "carol@y.com", subject := some "hi",
                     date := some 1700000100 },
    allPart := p }

/-- Three fetched messages, the second of which has a body that fails to
parse. -/
def demoMessages : List RawMessage :=
  [ demoMessage 1 (some (Except.ok
      { text := some "hello", html := none, attachments := 0 })),
    demoMessage 2 (some (Except.error "bad mime")),
    demoMessage 3 (some (Except.ok
      { text := some "yo", html := some "<b>yo</b>", attachments := 2 })) ]

/-- An IMAP environment whose search returns demoMessages. -/
def demoImapEnv : ImapEnv :=
  { now := 1700000000,
    connect := fun _ => Except.ok (),
    openBox := Except.ok (),
    search := Except.ok demoMessages }

/-- The record fetchEmails produces from the first demo message. -/
def demoRec1 : EmailRecord :=
  { messageId := 1, fromAddr := "carol@y.com", subject := "hi",
    date := 1700000100, body := "hello", bodyHtml := "", hasAttachments := false }

/-- The record fetchEmails produces from the second demo message (the one
whose body-parse fails): header fields populated, body fields left at their
defaults. -/
def demoRec2 : EmailRecord :=
  { messageId := 2, fromAddr := "carol@y.com", subject := "hi",
    date := 1700000100, body := "", bodyHtml := "", hasAttachments := false }

/-- The record fetchEmails produces from the third demo message. -/
def demoRec3 : EmailRecord :=
  { messageId := 3, fromAddr := "carol@y.com", subject := "hi",
    date := 1700000100, body := "yo", bodyHtml := "<b>yo</b>",
    hasAttachments := true }

/-- A sync environment with no stored accounts. -/
def demoSyncEnvNoUsers : SyncEnv :=
  { users := [], providerTok := Except.ok "at1", imap := demoImapEnv,
    saveFailAt := none }

/-- Witness for C8 at a concrete address with no stored account. -/
theorem account_not_found_c8_witness :
    ("a@x.com" ≠ "") ∧
    (demoSyncEnvNoUsers.users.find? (fun u => u.email == "a@x.com") = none) ∧
    fetchUserEmails demoSyncEnvNoUsers [] "a@x.com"
      = (Except.error "User not found", [], []) :=
  ⟨by decide, rfl, account_not_found_c8 demoSyncEnvNoUsers [] "a@x.com" (by decide) rfl⟩

/-- The first n characters of a string are at most n characters. -/
theorem jsSubstring_length_le (s : String) (n : Nat) :
    (jsSubstring s n).length ≤ n := by
  show (s.data.take n).length ≤ n
  exact List.length_take_le n s.data

/-- Every record processMessage produces respects the body truncation
bounds: plain text at most 5000 characters, HTML at most 10000. -/
theorem processMessage_bounds (now : Nat) (m : RawMessage) (e : EmailRecord)
    (h : processMessage now m = some e) :
    e.body.length ≤ 5000 ∧ e.bodyHtml.length ≤ 10000 := by
  rcases m with ⟨attrs, header, allPart⟩
  cases attrs with
  | none => simp [processMessage] at h
  | some uid =>
    cases header <;> rcases allPart with _ | ⟨err | parsed⟩ <;>
      simp only [processMessage, Option.some.injEq] at h <;> subst h <;>
      refine ⟨?_, ?_⟩ <;> dsimp only <;>
      repeat' first
        | exact jsSubstring_length_le _ _
        | split
        | simp

/-- A message whose attributes are readable is never dropped by
processMessage, whatever its header and body parse outcome. -/
theorem processMessage_isSome (now : Nat) (m : RawMessage)
    (h : m.attributes.isSome) : (processMessage now m).isSome := by
  rcases m with ⟨attrs, header, allPart⟩
  cases attrs with
  | none => simp at h
  | some uid =>
    cases header <;> rcases allPart with _ | ⟨_ | parsed⟩ <;> simp [processMessage]

/-- A body-parse failure is treated exactly like an absent body part: the
message is processed into the same record (headers kept, body fields at
their defaults). -/
theorem processMessage_parse_error (now : Nat) (m : RawMessage) (err : String)
    (h : m.allPart = some (Except.error err)) :
    processMessage now m = processMessage now { m with allPart := none } := by
  rcases m with ⟨attrs, header, allPart⟩
  cases attrs <;> simp_all [processMessage]

/-- When every message of a batch is processed to a record, the null filter
drops nothing: the result has one record per message. -/
theorem filterMap_map_length (now : Nat) (l : List RawMessage)
    (h : ∀ m ∈ l, (processMessage now m).isSome) :
    ((l.map (processMessage now)).filterMap id).length = l.length := by
  induction l with
  | nil => rfl
  | cons x xs ih =>
    obtain ⟨v, hv⟩ := Option.isSome_iff_exists.mp (h x (List.mem_cons_self x xs))
    have hxs : ∀ m ∈ xs, (processMessage now m).isSome :=
      fun m hm => h m (List.mem_cons_of_mem x hm)
    have hstep : (List.map (processMessage now) (x :: xs)).filterMap id
        = v :: (List.map (processMessage now) xs).filterMap id := by
      simp [hv]
    rw [hstep, List.length_cons, ih hxs, List.length_cons]

/-- C7: whenever fetchEmails succeeds, the result has at most limit records,
is exactly the first limit messages in server order processed in place (with
nulls dropped), every record has plain-text body is at most 5000 characters
and its HTML body at most 10000 characters, and the default limit is 50. -/
theorem fetch_limit_truncation_c7 (env : ImapEnv) (accessToken emailAddress : String)
    (limit : Nat) (l : List EmailRecord)
    (h : (fetchEmails env accessToken emailAddress limit).1 = Except.ok l) :
    l.length ≤ limit ∧
    (∀ msgs, env.search = Except.ok msgs →
       l = ((msgs.take limit).map (processMessage env.now)).filterMap id) ∧
    (∀ e ∈ l, e.body.length ≤ 5000 ∧ e.bodyHtml.length ≤ 10000) ∧
    fetchEmails env accessToken emailAddress
      = fetchEmails env accessToken emailAddress 50 := by
  unfold fetchEmails at h
  dsimp only at h
  split at h
  · simp at h
  · split at h
    · simp at h
    · split at h
      · simp at h
      · rename_i messages hsearch
        simp only [Prod.fst] at h
        injection h with h
        subst h
        refine ⟨?_, ?_, ?_, rfl⟩
        · have h1 := List.length_filterMap_le id
            ((messages.take limit).map (processMessage env.now))
          have h2 := List.length_map (messages.take limit) (processMessage env.now)
          have h3 := List.length_take_le limit messages
          omega
        · intro msgs hm
          rw [hsearch] at hm
          injection hm with hm
          subst hm
          rfl
        · intro e he
          obtain ⟨a, ha, hae⟩ := List.mem_filterMap.mp he
          obtain ⟨mm, hmm, hpm⟩ := List.mem_map.mp ha
          exact processMessage_bounds env.now mm e (hpm.trans hae)

/-- Witness for C7 at the demo environment with limit 1. -/
theorem fetch_limit_truncation_c7_witness :
    ((fetchEmails demoImapEnv "tok" "a@x.com" 1).1 = Except.ok [demoRec1]) ∧
    ([demoRec1].length ≤ 1 ∧
     (∀ msgs, demoImapEnv.search = Except.ok msgs →
        [demoRec1] = ((msgs.take 1).map (processMessage demoImapEnv.now)).filterMap id) ∧
     (∀ e ∈ [demoRec1], e.body.length ≤ 5000 ∧ e.bodyHtml.length ≤ 10000) ∧
     fetchEmails demoImapEnv "tok" "a@x.com"
       = fetchEmails demoImapEnv "tok" "a@x.com" 50) :=
  ⟨rfl, fetch_limit_truncation_c7 demoImapEnv "tok" "a@x.com" 1 [demoRec1] rfl⟩

/-- C2 counterexample: in the demo batch of three fetched messages, exactly
one of which has a body-parse failure, fetchEmails succeeds with three
records, not the two the claim asserts — the parse-failing message is
retained, not dropped. -/
theorem parse_failure_drop_c2_counterexample :
    ((fetchEmails demoImapEnv "tok" "a@x.com" 50).1.toOption.map List.length
       = some 3) ∧
    ((fetchEmails demoImapEnv "tok" "a@x.com" 50).1.toOption.map List.length
       ≠ some 2) :=
  ⟨rfl, by decide⟩

/-- C2 (amended): a per-message body-parse failure is caught and the
message is retained with its header fields and default (empty) body fields,
exactly as if the body part were absent; when the batch fetch succeeds and
the attributes of every message are readable, no message is dropped (the result
has one record per fetched message up to the limit) and no parse failure is
thrown to the caller. -/
theorem parse_failure_retained_c2 (env : ImapEnv) (accessToken emailAddress : String)
    (limit : Nat) (msgs : List RawMessage)
    (hconn : ∀ cfg, env.connect cfg = Except.ok ())
    (hbox : env.openBox = Except.ok ())
    (hsearch : env.search = Except.ok msgs)
    (hattr : ∀ m ∈ msgs, m.attributes.isSome) :
    (∀ (m : RawMessage) (err : String), m.allPart = some (Except.error err) →
       processMessage env.now m = processMessage env.now { m with allPart := none }) ∧
    ∃ l, fetchEmails env accessToken emailAddress limit
           = (Except.ok l, [NetEvent.connOpened, NetEvent.connClosed]) ∧
         l.length = (msgs.take limit).length := by
  refine ⟨fun m err hm => processMessage_parse_error env.now m err hm, ?_⟩
  refine ⟨((msgs.take limit).map (processMessage env.now)).filterMap id, ?_, ?_⟩
  · simp only [fetchEmails, hconn, hbox, hsearch]
  · exact filterMap_map_length env.now (msgs.take limit)
      (fun m hm => processMessage_isSome env.now m
        (hattr m (List.take_subset limit msgs hm)))

/-- Witness for the amended C2 at the demo environment. -/
theorem parse_failure_retained_c2_witness :
    ((∀ cfg, demoImapEnv.connect cfg = Except.ok ()) ∧
     demoImapEnv.openBox = Except.ok () ∧
     demoImapEnv.search = Except.ok demoMessages ∧
     (∀ m ∈ demoMessages, m.attributes.isSome)) ∧
    ((∀ (m : RawMessage) (err : String), m.allPart = some (Except.error err) →
        processMessage demoImapEnv.now m
          = processMessage demoImapEnv.now { m with allPart := none }) ∧
     ∃ l, fetchEmails demoImapEnv "tok" "a@x.com" 50
            = (Except.ok l, [NetEvent.connOpened, NetEvent.connClosed]) ∧
          l.length = (demoMessages.take 50).length) :=
  ⟨⟨fun _ => rfl, rfl, rfl, by decide⟩,
   parse_failure_retained_c2 demoImapEnv "tok" "a@x.com" 50 demoMessages
     (fun _ => rfl) rfl rfl (by decide)⟩

/-- C3: when the sync pipeline (lookup, token refresh, fetch) succeeds, the
result of fetchUserEmails does not depend on whether or where the cache
write fails: the full freshly fetched message list is returned for every
cache write outcome. -/
theorem cache_failure_not_propagated_c3 (env : SyncEnv) (db : List StoredEmail)
    (emailAddress : String) (emails : List EmailRecord) (failAt : Option Nat)
    (h : (fetchUserEmails { env with saveFailAt := none } db emailAddress).1
           = Except.ok emails) :
    (fetchUserEmails { env with saveFailAt := failAt } db emailAddress).1
      = Except.ok emails := by
  have key : (fetchUserEmails { env with saveFailAt := failAt } db emailAddress).1
      = (fetchUserEmails { env with saveFailAt := none } db emailAddress).1 := by
    unfold fetchUserEmails
    dsimp only
    split
    · rfl
    · split
      · rfl
      · split
        · rfl
        · split <;> rfl
  rw [key, h]

/-- A sync environment holding the sample account, a provider returning a
fresh token and the demo IMAP environment. -/
def demoSyncEnv : SyncEnv :=
  { users := [sampleUser], providerTok := Except.ok "at2",
    imap := demoImapEnv, saveFailAt := none }

/-- Witness for C3: the demo sync succeeds with three records, and with a
simulated cache write failure at the first insert it still returns the same
three records. -/
theorem cache_failure_not_propagated_c3_witness :
    ((fetchUserEmails { demoSyncEnv with saveFailAt := none } [] "a@x.com").1
       = Except.ok [demoRec1, demoRec2, demoRec3]) ∧
    ((fetchUserEmails { demoSyncEnv with saveFailAt := some 0 } [] "a@x.com").1
       = Except.ok [demoRec1, demoRec2, demoRec3]) :=
  ⟨rfl, cache_failure_not_propagated_c3 demoSyncEnv [] "a@x.com"
    [demoRec1, demoRec2, demoRec3] (some 0) rfl⟩

/-- A search string whose trim is empty makes the where clause filter by
userId alone. -/
theorem buildWhereFilter_blank (userId : Nat) (s : String) (h : jsTrim s = "") :
    buildWhereFilter userId s = fun r => r.userId == userId := by
  unfold buildWhereFilter
  rw [if_neg]
  simp [h]

/-- The empty (defaulted) search string makes the where clause filter by
userId alone. -/
theorem buildWhereFilter_empty (userId : Nat) :
    buildWhereFilter userId "" = fun r => r.userId == userId := by
  unfold buildWhereFilter
  rw [if_neg]
  simp

/-- C10: a search string that is empty or whitespace-only produces exactly
the same getStoredEmails result as an absent search option, and in that
case the where clause filters rows by the id of the owner alone. -/
theorem empty_search_ignored_c10 (users : List UserRec) (db : List StoredEmail)
    (emailAddress : String) (options : QueryOptions) (s : String)
    (h : jsTrim s = "") :
    getStoredEmails users db emailAddress { options with search := some s }
      = getStoredEmails users db emailAddress { options with search := none } ∧
    ∀ userId, buildWhereFilter userId s = fun r => r.userId == userId := by
  refine ⟨?_, fun userId => buildWhereFilter_blank userId s h⟩
  unfold getStoredEmails
  dsimp only
  cases hf : users.find? (fun u => u.email == emailAddress) with
  | none => rfl
  | some user =>
    simp only [Option.getD_some, Option.getD_none]
    simp only [buildWhereFilter_blank user.id s h, buildWhereFilter_empty user.id]

/-- Witness for C10 at a whitespace-only search over a concrete table. -/
theorem empty_search_ignored_c10_witness :
    (jsTrim " " = "") ∧
    (getStoredEmails [sampleUser] [{ userId := 1, email := demoRec1 }] "a@x.com"
        { ({} : QueryOptions) with search := some " " }
       = getStoredEmails [sampleUser] [{ userId := 1, email := demoRec1 }] "a@x.com"
           { ({} : QueryOptions) with search := none } ∧
     ∀ userId, buildWhereFilter userId " " = fun r => r.userId == userId) :=
  ⟨rfl, empty_search_ignored_c10 [sampleUser] [{ userId := 1, email := demoRec1 }]
    "a@x.com" {} " " rfl⟩

end ImapLogin
